import Mathlib

/-!
Verification development for the bank review ETL pipeline
(`src/preprocessing.py`, `src/db_operations.py`, `src/config.py`).

The dataframe pipeline is embedded shallowly: a dataframe is a list of
records, vectorized column operations become per-record maps/filters, and
the pandas/SQL library calls are modelled by their documented contracts.
Character-level text operations model the ASCII fragment of Python's
`str.lower`, `re.sub` and `str.strip` semantics.
-/

namespace BankReview

/-! ## Data model (raw scraped records, `scraper._format_review` shape) -/

/-- Value of the `rating` cell as seen by `pd.to_numeric(errors='coerce')`:
either missing (NaN), a numeric value, or a value that numeric coercion
cannot parse (coerced to NaN). -/
inductive RatingVal where
  | null : RatingVal
  | num (q : ℚ) : RatingVal
  | nonNumeric : RatingVal
deriving DecidableEq, Repr

/-- Value of the `review_date` cell as seen by `pd.to_datetime(utc=True)`:
missing (NaN, parsed silently to NaT), a parseable timestamp carrying its
`YYYY-MM-DD` UTC rendering, or an unparseable value (raises). -/
inductive DateVal where
  | null : DateVal
  | parsed (iso : String) : DateVal
  | bad : DateVal
deriving DecidableEq, Repr

/-- One row of the raw reviews dataframe (columns as written by the scraper). -/
structure Rec where
  review_id : Option String := none
  user_name : Option String := none
  review_text : Option String
  rating : RatingVal
  review_date : DateVal
  thumbs_up_count : Int := 0
  reply_content : Option String := none
  bank_code : String
  bank_name : String
  app_id : Option String := none
  source : String := "Google Play Store"
  /-- the `date` column created by pass 3 (absent before it runs) -/
  date : Option String := none
deriving DecidableEq, Repr

/-! ## Pass 1: `remove_duplicates` -/

/-- `drop_duplicates(subset=['review_text','bank_code'], keep='first')` key. -/
def dedupKey (r : Rec) : Option String × String := (r.review_text, r.bank_code)

/-- First-wins deduplication: keep a row iff its key was not seen earlier. -/
def removeDupAux (seen : List (Option String × String)) : List Rec → List Rec
  | [] => []
  | r :: rs =>
    if dedupKey r ∈ seen then removeDupAux seen rs
    else r :: removeDupAux (dedupKey r :: seen) rs

def remove_duplicates (rs : List Rec) : List Rec := removeDupAux [] rs

/-! ## Pass 2: `handle_missing_values` -/

def ratingIsNull : RatingVal → Bool
  | .null => true
  | _ => false

def dateIsNull : DateVal → Bool
  | .null => true
  | _ => false

/-- `dropna(subset=['review_text','rating','review_date'])` keep-predicate. -/
def criticalPresent (r : Rec) : Bool :=
  r.review_text.isSome && !(ratingIsNull r.rating) && !(dateIsNull r.review_date)

/-- Drop rows missing a critical column, then fill `reply_content` with `''`
and `app_id` with `'N/A'`. -/
def handle_missing_values (rs : List Rec) : List Rec :=
  (rs.filter criticalPresent).map fun r =>
    { r with reply_content := some (r.reply_content.getD "")
           , app_id := some (r.app_id.getD "N/A") }

/-! ## Pass 3: `normalize_dates` -/

/-- Contract of `pd.to_datetime(col, utc=True).dt.date.astype(str)` on one
cell: NaN parses silently to NaT (rendered `"NaT"`), a parseable timestamp
renders as `YYYY-MM-DD`, an unparseable value raises. -/
def parseDate : DateVal → Option String
  | .null => some "NaT"
  | .parsed iso => some iso
  | .bad => none

/-- `normalize_dates`: the whole-column conversion either succeeds for every
cell (creating the `date` column) or raises; the `except` branch swallows
the exception and leaves the frame without a `date` column.  The returned
Bool records whether the `date` column now exists. -/
def normalize_dates (rs : List Rec) : List Rec × Bool :=
  if rs.all fun r => (parseDate r.review_date).isSome then
    (rs.map fun r => { r with date := parseDate r.review_date }, true)
  else
    (rs, false)

/-! ## Pass 4: `clean_text` -/

/-- Characters matched by the regex class `[\r\n]`. -/
def isNewlineChar (c : Char) : Bool := c == '\r' || c == '\n'

/-- Characters matched by `\s` (ASCII fragment): space, tab, LF, CR, VT, FF. -/
def isSpaceChar (c : Char) : Bool :=
  c == ' ' || c == '\t' || c == '\n' || c == '\r' || c == '\x0b' || c == '\x0c'

/-- `re.sub(p+, ' ', text)`: replace every maximal run of characters
satisfying `p` by a single space.  The flag records whether the previous
character was inside a run. -/
def collapseRuns (p : Char → Bool) : Bool → List Char → List Char
  | _, [] => []
  | inRun, c :: cs =>
    if p c then
      if inRun then collapseRuns p true cs
      else ' ' :: collapseRuns p true cs
    else c :: collapseRuns p false cs

/-- Right-hand side of Python `str.strip`: drop trailing `p`-characters. -/
def rstrip (p : Char → Bool) : List Char → List Char
  | [] => []
  | c :: cs =>
    match rstrip p cs with
    | [] => if p c then [] else [c]
    | d :: ds => c :: d :: ds

/-- Python `str.strip()` (ASCII whitespace fragment). -/
def pyStrip (l : List Char) : List Char :=
  rstrip isSpaceChar (l.dropWhile isSpaceChar)

/-- `basic_text_clean`: NaN passes through; otherwise lowercase, collapse
newline runs to a space, collapse whitespace runs to a space, strip. -/
def basic_text_clean : Option String → Option String
  | none => none
  | some s =>
    some (String.mk (pyStrip (collapseRuns isSpaceChar false
      (collapseRuns isNewlineChar false (s.data.map Char.toLower)))))

/-- `clean_text`: apply `basic_text_clean` to `review_text` and
`reply_content` of every row. -/
def clean_text (rs : List Rec) : List Rec :=
  rs.map fun r =>
    { r with review_text := basic_text_clean r.review_text
           , reply_content := basic_text_clean r.reply_content }

/-! ## Pass 5: `validate_ratings` -/

/-- `pd.to_numeric(errors='coerce')` on one rating cell (the
`downcast='integer'` option only changes the storage dtype when every value
is integral; it never changes a value). -/
def toNumeric : RatingVal → Option ℚ
  | .num q => some q
  | _ => none

/-- Coerce the rating column, drop NaNs produced by coercion, then keep
rows with `1 <= rating <= 5`. -/
def validate_ratings (rs : List Rec) : List Rec :=
  (rs.map fun r =>
    { r with rating := match toNumeric r.rating with
                       | some q => RatingVal.num q
                       | none => RatingVal.null }).filter fun r =>
    match r.rating with
    | .num q => decide (1 ≤ q) && decide (q ≤ 5)
    | _ => false

/-! ## Pass 6: `prepare_final_output` -/

/-- `astype(int)` / `int(..)` on a numeric value: truncation toward zero. -/
def npTruncInt (q : ℚ) : ℤ := if q < 0 then -(Rat.floor (-q)) else Rat.floor q

/-- One row of the final output frame: columns
`review, rating, date, bank, source`. -/
structure FinalRec where
  review : Option String
  rating : ℤ
  date : String
  bank : String
  source : String
deriving DecidableEq, Repr

/-- Projection of one surviving row (rename `review_text` to `review`,
`bank_name` to `bank`; `rating.astype(int)`; constant `source`). -/
def toFinal (r : Rec) : FinalRec :=
  { review := r.review_text
  , rating := match toNumeric r.rating with
              | some q => npTruncInt q
              | none => 0
  , date := r.date.getD ""
  , bank := r.bank_name
  , source := "Google Play Store" }

/-- `prepare_final_output`: selecting column `date` raises a `KeyError`
when pass 3 never created it; otherwise project every row. -/
def prepare_final_output (rs : List Rec) (hasDateCol : Bool) :
    Except String (List FinalRec) :=
  if hasDateCol then Except.ok (rs.map toFinal)
  else Except.error "KeyError: date"

/-! ## Pipeline and report (`process`, `generate_report`) -/

/-- The `stats` dictionary entries used by `generate_report`. -/
structure Stats where
  original_count : ℕ
  duplicates_removed : ℕ
  rows_removed_missing : ℕ
  rows_removed_invalid_rating : ℕ
  final_count : ℕ
deriving DecidableEq, Repr

/-- `process`: run the six passes in order on an in-memory batch.  The only
failure surfaced after loading is the uncaught `KeyError` from pass 6. -/
def process (rs : List Rec) : Except String (List FinalRec × Stats) :=
  let d1 := remove_duplicates rs
  let d2 := handle_missing_values d1
  let p3 := normalize_dates d2
  let d4 := clean_text p3.1
  let d5 := validate_ratings d4
  match prepare_final_output d5 p3.2 with
  | Except.ok out =>
      Except.ok (out,
        { original_count := rs.length
        , duplicates_removed := rs.length - d1.length
        , rows_removed_missing := d1.length - d2.length
        , rows_removed_invalid_rating := d4.length - d5.length
        , final_count := out.length })
  | Except.error e => Except.error e

/-- `generate_report`'s data-loss percentage: `(total_removed /
original_count) * 100` when the original count is positive, else `0`. -/
def data_loss_pct (s : Stats) : ℚ :=
  let total : ℕ :=
    s.duplicates_removed + s.rows_removed_missing + s.rows_removed_invalid_rating
  if 0 < s.original_count then ((total : ℚ) / (s.original_count : ℚ)) * 100
  else 0

/-! ## Loader data model (`db_operations.py`, `config.py`) -/

/-- `BANK_NAMES` static mapping from `config.py`. -/
def BANK_NAMES : List (String × String) :=
  [("CBE", "Commercial Bank of Ethiopia"),
   ("BOA", "Bank of Abyssinia"),
   ("Dashen", "Dashen Bank")]

/-- `BANK_NAMES.get(code, code)`. -/
def bankNameFor (code : String) : String :=
  ((BANK_NAMES.find? fun p => p.1 == code).map Prod.snd).getD code

/-- One row of the `banks` dimension table created by `create_tables`. -/
structure BankRow where
  bank_id : ℕ
  bank_code : String
  bank_name : String
  app_name : Option String
deriving DecidableEq, Repr

/-- One row of the `reviews` fact table created by `create_tables`.  The
only uniqueness constraint declared on this table is the serial primary
key `review_id`. -/
structure ReviewRow where
  review_id : ℕ
  bank_id : ℕ
  review_text : String
  rating : ℤ
  review_date : String
  sentiment_label : Option String
  sentiment_score : ℚ
  identified_theme : Option String
deriving DecidableEq, Repr

/-- The relational store: both tables plus their serial sequences. -/
structure Store where
  banks : List BankRow
  reviews : List ReviewRow
  banks_seq : ℕ
  reviews_seq : ℕ
deriving DecidableEq, Repr

/-- The store right after `create_tables` ran against a fresh database. -/
def emptyStore : Store :=
  { banks := [], reviews := [], banks_seq := 1, reviews_seq := 1 }

/-- `create_tables` uses `CREATE TABLE IF NOT EXISTS` plus an additive
column migration: on a store that already has the two tables it is the
identity. -/
def create_tables (db : Store) : Store := db

/-- `INSERT INTO banks ... ON CONFLICT (bank_code) DO NOTHING`: skip when
the natural key is already present, else append with a fresh serial id. -/
def insertBankRow (db : Store) (code name : String) : Store :=
  if db.banks.any fun b => b.bank_code == code then db
  else
    { db with
      banks := db.banks ++
        [{ bank_id := db.banks_seq, bank_code := code,
           bank_name := name, app_name := none }]
      banks_seq := db.banks_seq + 1 }

def insertBanksLoop : Store → List String → Store
  | db, [] => db
  | db, c :: cs => insertBanksLoop (insertBankRow db c (bankNameFor c)) cs

/-- `insert_banks`: insert every incoming code (conflict-skip on the
natural key), then read back the whole dimension table as the
`bank_code -> bank_id` lookup. -/
def insert_banks (db : Store) (codes : List String) :
    Store × List (String × ℕ) :=
  let db2 := insertBanksLoop db codes
  (db2, db2.banks.map fun b => (b.bank_code, b.bank_id))

def lookupBank (lkp : List (String × ℕ)) (code : String) : Option ℕ :=
  (lkp.find? fun p => p.1 == code).map Prod.snd

/-- A `review_date` CSV cell as seen by the store's DATE input parser:
either a literal the parser accepts (carrying its text) or one it rejects
with `invalid input syntax for type date`.  Like `DateVal` for
`pd.to_datetime`, this models the library's contract, not its grammar. -/
inductive DateLit where
  | ok (text : String) : DateLit
  | malformed (text : String) : DateLit
deriving DecidableEq, Repr

def DateLit.text : DateLit → String
  | .ok t => t
  | .malformed t => t

/-- Outcome of the store parsing one DATE literal. -/
def dateAccepted : DateLit → Option String
  | .ok t => some t
  | .malformed _ => none

/-- One row of the final enriched artifact (`reviews_final.csv`). -/
structure ArtifactRow where
  bank_code : String
  review_text : String
  rating : ℚ
  review_date : DateLit
  sentiment_label : Option String
  sentiment_score : ℚ
  identified_theme : Option String
deriving DecidableEq, Repr

/-- `character varying(n)` accepts a value iff its length fits, except
that excess trailing spaces are silently truncated away (the stored
truncation itself is not modelled: no property here reads these columns
back). -/
def varcharFits (n : ℕ) : Option String → Bool
  | none => true
  | some s => (rstrip (fun c => c == ' ') s.data).length ≤ n

/-- Smallest magnitude `NUMERIC(5, 4)` rejects: 9.99995 and above rounds
(half away from zero) to 10.0000, one integer digit too many. -/
def numericCap : ℚ := ⟨199999, 20000, by norm_num, by norm_num⟩

/-- `numeric field overflow` for a `NUMERIC(5, 4)` column (the scale-4
rounding of an accepted stored value is not modelled: no property here
reads the stored score back). -/
def numericOverflow (q : ℚ) : Bool :=
  decide (numericCap ≤ q) || decide (q ≤ -numericCap)

/-- The fact tuple `insert_reviews` builds for one resolvable record
(`int(row['rating'])` truncates toward zero). -/
def mkReviewRow (db : Store) (bid : ℕ) (row : ArtifactRow) : ReviewRow :=
  { review_id := db.reviews_seq, bank_id := bid
  , review_text := row.review_text, rating := npTruncInt row.rating
  , review_date := row.review_date.text, sentiment_label := row.sentiment_label
  , sentiment_score := row.sentiment_score
  , identified_theme := row.identified_theme }

/-- One `INSERT INTO reviews ... ON CONFLICT DO NOTHING` statement, with
every row constraint of the table `create_tables` declares: input
conversion (DATE literal, varchar length, numeric precision) and the
rating CHECK and foreign-key constraints raise an error; `ON CONFLICT DO
NOTHING` suppresses only a uniqueness conflict, and the only unique
constraint is the serial primary key.  NOT NULL columns are structural
here (non-optional fields), and the order the store checks a bad row's
several violations in is not modelled — every violation aborts alike. -/
def insertReviewRow (db : Store) (bid : ℕ) (row : ArtifactRow) :
    Except String Store :=
  if (dateAccepted row.review_date).isNone then
    Except.error "invalid input syntax for type date"
  else if !varcharFits 50 row.sentiment_label then
    Except.error "value too long for type character varying(50)"
  else if !varcharFits 100 row.identified_theme then
    Except.error "value too long for type character varying(100)"
  else if numericOverflow row.sentiment_score then
    Except.error "numeric field overflow"
  else if npTruncInt row.rating < 1 ∨ 5 < npTruncInt row.rating then
    Except.error "new row violates check constraint on rating"
  else if !(db.banks.any fun b => b.bank_id == bid) then
    Except.error "insert violates foreign key constraint"
  else if db.reviews.any fun r => r.review_id == db.reviews_seq then
    Except.ok db
  else
    Except.ok
      { db with
        reviews := db.reviews ++ [mkReviewRow db bid row]
        reviews_seq := db.reviews_seq + 1 }

def skipWarning (code : String) : String :=
  "Warning: Skipping review for unknown bank code: " ++ code

/-- The tuple-building loop of `insert_reviews`: resolve each row's bank
code through the lookup, skipping unresolvable rows with a printed
warning, keeping resolvable rows with their surrogate id in order. -/
def buildTuples (lkp : List (String × ℕ)) :
    List ArtifactRow → List (ℕ × ArtifactRow) × List String
  | [] => ([], [])
  | row :: rest =>
    let p := buildTuples lkp rest
    match lookupBank lkp row.bank_code with
    | none => (p.1, skipWarning row.bank_code :: p.2)
    | some bid => ((bid, row) :: p.1, p.2)

/-- `psycopg2.extras.execute_batch`: execute the insert statements in
order; the first error aborts the batch and is raised to the caller. -/
def runBatch : Store → List (ℕ × ArtifactRow) → Except String Store
  | db, [] => Except.ok db
  | db, t :: rest =>
    match insertReviewRow db t.1 t.2 with
    | Except.ok db2 => runBatch db2 rest
    | Except.error e => Except.error e

/-- `insert_reviews`: build the tuples (printing one warning per skipped
row), then batch-insert and commit.  On a store error the transaction is
rolled back — the caller's store keeps its state from before the call —
and the exception is re-raised. -/
def insert_reviews (lkp : List (String × ℕ)) (db : Store)
    (rows : List ArtifactRow) : Except String (Store × List String) :=
  let p := buildTuples lkp rows
  match runBatch db p.1 with
  | Except.ok db2 => Except.ok (db2, p.2)
  | Except.error e => Except.error e

/-- One fact tuple passes every per-row value constraint of the reviews
table (everything `insertReviewRow` checks short of the foreign key and
the never-firing primary-key conflict). -/
def rowAccepted (row : ArtifactRow) : Bool :=
  (dateAccepted row.review_date).isSome &&
  varcharFits 50 row.sentiment_label &&
  varcharFits 100 row.identified_theme &&
  !numericOverflow row.sentiment_score &&
  decide (1 ≤ npTruncInt row.rating) && decide (npTruncInt row.rating ≤ 5)

/-- Every surrogate id the lookup can hand out is a row of the dimension
table — true of the lookup `insert_banks` builds, since it reads it back
from that very table. -/
def lkpConsistent (lkp : List (String × ℕ)) (db : Store) : Bool :=
  lkp.all fun p => db.banks.any fun b => b.bank_id == p.2

/-- `df['bank_code'].unique()`: distinct values in order of first
appearance. -/
def removeDupStr (seen : List String) : List String → List String
  | [] => []
  | c :: cs =>
    if c ∈ seen then removeDupStr seen cs
    else c :: removeDupStr (c :: seen) cs

/-- `required_cols` checked by `main` in `db_operations.py`. -/
def required_cols : List String :=
  ["bank_code", "review_text", "rating", "review_date",
   "sentiment_label", "sentiment_score", "identified_theme"]

/-- `EXPECTED_COLUMNS` from `config.py` (note: no `identified_theme`). -/
def EXPECTED_COLUMNS : List String :=
  ["bank_code", "review_text", "rating", "review_date",
   "sentiment_label", "sentiment_score"]

/-- Observable outcome of one `main` run of the Loader: the process exit
status, whether a database connection was established, the final store
state, and the reported messages. -/
structure LoadResult where
  exitCode : ℕ
  connected : Bool
  store : Store
  messages : List String
deriving DecidableEq, Repr

/-- `main` of `db_operations.py`.  `fileExists` models `os.path.exists`,
`cols` the column set of the loaded CSV, `rows` its records, `connOk`
whether `connect_to_db` obtains a connection, `db` the initial store.
Every early-`return` path leaves the Python process with exit status 0;
`sys.exit(1)` is reached only from the exception handler, after a store
error raised out of `insert_reviews` with the connection open — the
Phase A store keeps its committed rows, the failed batch is rolled back. -/
def loader_main (fileExists : Bool) (cols : List String)
    (rows : List ArtifactRow) (connOk : Bool) (db : Store) : LoadResult :=
  if fileExists then
    if required_cols.all (fun c => cols.contains c) then
      if connOk then
        let db1 := create_tables db
        let p := insert_banks db1 (removeDupStr [] (rows.map ArtifactRow.bank_code))
        if p.2.isEmpty then
          { exitCode := 0, connected := true, store := p.1
          , messages := ["ERROR: Failed to retrieve bank ID lookup. Cannot insert reviews."] }
        else
          match insert_reviews p.2 p.1 rows with
          | Except.ok q =>
            { exitCode := 0, connected := true, store := q.1
            , messages := q.2 ++ ["SUCCESS: ETL Process Complete!"] }
          | Except.error e =>
            { exitCode := 1, connected := true, store := p.1
            , messages := ["FATAL ERROR: Data pipeline failed. Details: " ++ e] }
      else
        { exitCode := 0, connected := false, store := db
        , messages := ["Maximum connection attempts reached. Aborting."] }
    else
      { exitCode := 0, connected := false, store := db
      , messages := ["ERROR: CSV is missing required columns"] }
  else
    { exitCode := 0, connected := false, store := db
    , messages := ["ERROR: Input file not found"] }

/-- Every fact row's serial id is below the sequence value: true of the
empty store and preserved by every operation of the model (it is what a
serial column guarantees). -/
def GoodStore (db : Store) : Prop :=
  ∀ r ∈ db.reviews, r.review_id < db.reviews_seq

/-! ## Concrete batches and rows used by counterexamples and witnesses -/

/-- `4.7`, a numeric rating that is not an integer. -/
def q47 : ℚ := ⟨47, 10, by norm_num, by norm_num⟩

def recValid : Rec :=
  { review_text := some "Nice", rating := .num 5, review_date := .parsed "2024-01-01"
  , bank_code := "CBE", bank_name := "Commercial Bank of Ethiopia" }

def recBadDate : Rec :=
  { review_text := some "Hello", rating := .num 5, review_date := .bad
  , bank_code := "CBE", bank_name := "Commercial Bank of Ethiopia" }

def recBadRating : Rec :=
  { review_text := some "HI", rating := .nonNumeric, review_date := .parsed "2024-01-02"
  , bank_code := "BOA", bank_name := "Bank of Abyssinia" }

/-- Non-null but whitespace-only review text. -/
def recBlankText : Rec :=
  { review_text := some " \n ", rating := .num 5, review_date := .parsed "2024-01-03"
  , bank_code := "CBE", bank_name := "Commercial Bank of Ethiopia" }

def recFrac : Rec :=
  { review_text := some "Okay", rating := .num q47, review_date := .parsed "2024-01-04"
  , bank_code := "Dashen", bank_name := "Dashen Bank" }

def recCaseA : Rec :=
  { review_text := some "Great", rating := .num 5, review_date := .parsed "2024-01-05"
  , bank_code := "CBE", bank_name := "Commercial Bank of Ethiopia" }

def recCaseB : Rec :=
  { review_text := some "great", rating := .num 4, review_date := .parsed "2024-01-05"
  , bank_code := "CBE", bank_name := "Commercial Bank of Ethiopia" }

def finValid : FinalRec :=
  { review := some "nice", rating := 5, date := "2024-01-01"
  , bank := "Commercial Bank of Ethiopia", source := "Google Play Store" }

def statsValid : Stats :=
  { original_count := 1, duplicates_removed := 0, rows_removed_missing := 0
  , rows_removed_invalid_rating := 0, final_count := 1 }

def finBlank : FinalRec :=
  { review := some "", rating := 5, date := "2024-01-03"
  , bank := "Commercial Bank of Ethiopia", source := "Google Play Store" }

def statsBlank : Stats :=
  { original_count := 1, duplicates_removed := 0, rows_removed_missing := 0
  , rows_removed_invalid_rating := 0, final_count := 1 }

/-- `recFrac` as it stands right after the rating-validation pass. -/
def recFracStage5 : Rec :=
  { recFrac with
      review_text := some "okay"
      reply_content := some ""
      app_id := some "N/A"
      date := some "2024-01-04" }

/-- `recBadDate` as it stands right after the rating-validation pass of a
run whose date normalization failed (no `date` column). -/
def recBadDateStage5 : Rec :=
  { recBadDate with
      review_text := some "hello"
      reply_content := some ""
      app_id := some "N/A" }

def finCaseA : FinalRec :=
  { review := some "great", rating := 5, date := "2024-01-05"
  , bank := "Commercial Bank of Ethiopia", source := "Google Play Store" }

def finCaseB : FinalRec :=
  { review := some "great", rating := 4, date := "2024-01-05"
  , bank := "Commercial Bank of Ethiopia", source := "Google Play Store" }

def statsCase : Stats :=
  { original_count := 2, duplicates_removed := 0, rows_removed_missing := 0
  , rows_removed_invalid_rating := 0, final_count := 2 }

def artValid : ArtifactRow :=
  { bank_code := "CBE"
  , review_text := "good app"
  , rating := 5
  , review_date := DateLit.ok "2024-01-01"
  , sentiment_label := some "positive"
  , sentiment_score := ⟨9, 10, by norm_num, by norm_num⟩
  , identified_theme := some "UI" }

/-- A fact row whose source code resolves in no dimension lookup. -/
def artUnknown : ArtifactRow :=
  { bank_code := "XYZ"
  , review_text := "mystery"
  , rating := 3
  , review_date := DateLit.ok "2024-01-02"
  , sentiment_label := some "neutral"
  , sentiment_score := ⟨1, 2, by norm_num, by norm_num⟩
  , identified_theme := none }

/-- A resolvable fact row whose rating violates the reviews table's
CHECK constraint. -/
def artRating7 : ArtifactRow :=
  { bank_code := "CBE"
  , review_text := "over the top"
  , rating := 7
  , review_date := DateLit.ok "2024-01-03"
  , sentiment_label := some "positive"
  , sentiment_score := ⟨1, 2, by norm_num, by norm_num⟩
  , identified_theme := none }

def lkpCBE : List (String × ℕ) := [("CBE", 1)]

/-- A store holding exactly the CBE dimension row that `lkpCBE` points at. -/
def storeCBE : Store :=
  { banks := [{ bank_id := 1, bank_code := "CBE"
              , bank_name := "Commercial Bank of Ethiopia", app_name := none }]
  , reviews := [], banks_seq := 2, reviews_seq := 1 }

end BankReview

deriving instance DecidableEq for Except

namespace BankReview

/-! ## Theorems -/

theorem removeDupAux_sublist (seen : List (Option String × String)) (rs : List Rec) :
    (removeDupAux seen rs).Sublist rs := by
  induction rs generalizing seen with
  | nil => simp [removeDupAux]
  | cons r rs ih =>
    by_cases h : dedupKey r ∈ seen
    · rw [removeDupAux, if_pos h]
      exact (ih seen).cons r
    · rw [removeDupAux, if_neg h]
      exact (ih _).cons₂ r

theorem removeDupAux_mem (seen : List (Option String × String)) (rs : List Rec) :
    ∀ x ∈ removeDupAux seen rs,
      dedupKey x ∉ seen ∧
        rs.find? (fun y => decide (dedupKey y = dedupKey x)) = some x := by
  induction rs generalizing seen with
  | nil => simp [removeDupAux]
  | cons r rs ih =>
    intro x hx
    by_cases h : dedupKey r ∈ seen
    · rw [removeDupAux, if_pos h] at hx
      obtain ⟨hns, hfind⟩ := ih seen x hx
      have hne : ¬(dedupKey r = dedupKey x) := fun he => hns (he ▸ h)
      refine ⟨hns, ?_⟩
      rw [List.find?_cons_of_neg _ (by simpa using hne), hfind]
    · rw [removeDupAux, if_neg h] at hx
      rcases List.mem_cons.mp hx with rfl | hx
      · exact ⟨h, by rw [List.find?_cons_of_pos _ (by simp)]⟩
      · obtain ⟨hns, hfind⟩ := ih _ x hx
        have h1 : ¬(dedupKey r = dedupKey x) := fun he =>
          hns (by rw [← he]; exact List.mem_cons_self _ _)
        refine ⟨fun hc => hns (List.mem_cons_of_mem _ hc), ?_⟩
        rw [List.find?_cons_of_neg _ (by simpa using h1), hfind]

theorem removeDupAux_pairwise (seen : List (Option String × String)) (rs : List Rec) :
    (removeDupAux seen rs).Pairwise fun a b => dedupKey a ≠ dedupKey b := by
  induction rs generalizing seen with
  | nil => simp [removeDupAux]
  | cons r rs ih =>
    by_cases h : dedupKey r ∈ seen
    · rw [removeDupAux, if_pos h]; exact ih seen
    · rw [removeDupAux, if_neg h]
      refine List.Pairwise.cons ?_ (ih _)
      intro b hb hbeq
      exact (removeDupAux_mem _ _ b hb).1 (by rw [← hbeq]; exact List.mem_cons_self _ _)

/-- Claim C5 -/
theorem C5_dedup_first_wins (rs : List Rec) :
    (remove_duplicates rs).Sublist rs ∧
    ((remove_duplicates rs).Pairwise fun a b => dedupKey a ≠ dedupKey b) ∧
    ∀ x ∈ remove_duplicates rs,
      rs.find? (fun y => decide (dedupKey y = dedupKey x)) = some x := by
  refine ⟨removeDupAux_sublist [] rs, removeDupAux_pairwise [] rs, fun x hx => ?_⟩
  exact (removeDupAux_mem [] rs x hx).2

theorem mem_collapseRuns (p : Char → Bool) (l : List Char) :
    ∀ b, ∀ c ∈ collapseRuns p b l, c = ' ' ∨ (c ∈ l ∧ p c = false) := by
  induction l with
  | nil => intro b c hc; simp [collapseRuns] at hc
  | cons a l ih =>
    intro b c hc
    by_cases hp : p a
    · rw [collapseRuns, if_pos hp] at hc
      cases b with
      | true =>
        rcases ih true c hc with h | ⟨h1, h2⟩
        · exact Or.inl h
        · exact Or.inr ⟨List.mem_cons_of_mem _ h1, h2⟩
      | false =>
        rcases List.mem_cons.mp hc with rfl | hc
        · exact Or.inl rfl
        · rcases ih true c hc with h | ⟨h1, h2⟩
          · exact Or.inl h
          · exact Or.inr ⟨List.mem_cons_of_mem _ h1, h2⟩
    · rw [collapseRuns, if_neg hp] at hc
      rcases List.mem_cons.mp hc with rfl | hc
      · exact Or.inr ⟨List.mem_cons_self _ _, by simpa using hp⟩
      · rcases ih false c hc with h | ⟨h1, h2⟩
        · exact Or.inl h
        · exact Or.inr ⟨List.mem_cons_of_mem _ h1, h2⟩

theorem head_collapseRuns_inRun (p : Char → Bool) (l : List Char) :
    ∀ c, (collapseRuns p true l).head? = some c → p c = false := by
  induction l with
  | nil => intro c hc; simp [collapseRuns] at hc
  | cons a l ih =>
    intro c hc
    by_cases hp : p a
    · rw [collapseRuns, if_pos hp] at hc
      exact ih c hc
    · rw [collapseRuns, if_neg hp] at hc
      simp only [List.head?_cons, Option.some.injEq] at hc
      subst hc
      simpa using hp

theorem chain'_collapseRuns (p : Char → Bool) (l : List Char) :
    ∀ b, (collapseRuns p b l).Chain' fun x y => p x = false ∨ p y = false := by
  induction l with
  | nil => intro b; simp [collapseRuns]
  | cons a l ih =>
    intro b
    by_cases hp : p a
    · rw [collapseRuns, if_pos hp]
      cases b with
      | true => exact ih true
      | false =>
        rw [if_neg Bool.false_ne_true, List.chain'_cons']
        refine ⟨fun y hy => Or.inr (head_collapseRuns_inRun p l y ?_), ih true⟩
        simpa using hy
    · rw [collapseRuns, if_neg hp]
      rw [List.chain'_cons']
      exact ⟨fun y _ => Or.inl (by simpa using hp), ih false⟩

theorem head_dropWhile (p : Char → Bool) (l : List Char) :
    ∀ c, (l.dropWhile p).head? = some c → p c = false := by
  induction l with
  | nil => intro c hc; simp at hc
  | cons a l ih =>
    intro c hc
    by_cases hp : p a
    · rw [List.dropWhile_cons_of_pos (by simpa using hp)] at hc
      exact ih c hc
    · rw [List.dropWhile_cons_of_neg (by simpa using hp)] at hc
      simp only [List.head?_cons, Option.some.injEq] at hc
      subst hc
      simpa using hp

theorem chain'_dropWhile {R : Char → Char → Prop} (p : Char → Bool) (l : List Char)
    (h : l.Chain' R) : (l.dropWhile p).Chain' R := by
  induction l with
  | nil => simp
  | cons a l ih =>
    by_cases hp : p a
    · rw [List.dropWhile_cons_of_pos (by simpa using hp)]
      exact ih h.tail
    · rwa [List.dropWhile_cons_of_neg (by simpa using hp)]

theorem mem_rstrip (p : Char → Bool) (l : List Char) :
    ∀ c ∈ rstrip p l, c ∈ l := by
  induction l with
  | nil => simp [rstrip]
  | cons a l ih =>
    intro c hc
    rw [rstrip] at hc
    rcases hr : rstrip p l with _ | ⟨d, ds⟩
    · rw [hr] at hc
      by_cases hp : p a
      · simp [if_pos hp] at hc
      · rw [if_neg hp] at hc
        simp only [List.mem_singleton] at hc
        exact hc ▸ List.mem_cons_self _ _
    · rw [hr] at hc
      rcases List.mem_cons.mp hc with rfl | hc
      · exact List.mem_cons_self _ _
      · exact List.mem_cons_of_mem _ (ih c (hr ▸ hc))

theorem head_rstrip (p : Char → Bool) (l : List Char) :
    rstrip p l = [] ∨ (rstrip p l).head? = l.head? := by
  cases l with
  | nil => exact Or.inl rfl
  | cons a l =>
    rw [rstrip]
    rcases hr : rstrip p l with _ | ⟨d, ds⟩
    · by_cases hp : p a
      · rw [if_pos hp]; exact Or.inl rfl
      · rw [if_neg hp]; exact Or.inr rfl
    · exact Or.inr rfl

theorem getLast_rstrip (p : Char → Bool) (l : List Char) :
    ∀ c, (rstrip p l).getLast? = some c → p c = false := by
  induction l with
  | nil => intro c hc; simp [rstrip] at hc
  | cons a l ih =>
    intro c hc
    rw [rstrip] at hc
    rcases hr : rstrip p l with _ | ⟨d, ds⟩
    · rw [hr] at hc
      by_cases hp : p a
      · simp [if_pos hp] at hc
      · rw [if_neg hp] at hc
        simp only [List.getLast?_singleton, Option.some.injEq] at hc
        subst hc
        simpa using hp
    · rw [hr, List.getLast?_cons_cons] at hc
      exact ih c (hr ▸ hc)

theorem chain'_rstrip {R : Char → Char → Prop} (p : Char → Bool) (l : List Char)
    (h : l.Chain' R) : (rstrip p l).Chain' R := by
  induction l with
  | nil => simpa using h
  | cons a l ih =>
    rw [rstrip]
    rcases hr : rstrip p l with _ | ⟨d, ds⟩
    · by_cases hp : p a
      · simp [if_pos hp]
      · rw [if_neg hp]
        exact List.chain'_singleton a
    · cases l with
      | nil => simp [rstrip] at hr
      | cons e l' =>
        rcases head_rstrip p (e :: l') with he | he
        · rw [he] at hr; cases hr
        · rw [hr] at he
          simp only [List.head?_cons, Option.some.injEq] at he
          subst he
          rw [List.chain'_cons']
          constructor
          · intro y hy
            have hyd : d = y := by simpa using hy
            subst hyd
            exact (List.chain'_cons.mp h).1
          · exact hr ▸ ih h.tail

theorem mem_dropWhile_sub (p : Char → Bool) (l : List Char) :
    ∀ c ∈ l.dropWhile p, c ∈ l := by
  induction l with
  | nil => simp
  | cons a l ih =>
    intro c hc
    by_cases hp : p a
    · rw [List.dropWhile_cons_of_pos (by simpa using hp)] at hc
      exact List.mem_cons_of_mem _ (ih c hc)
    · rwa [List.dropWhile_cons_of_neg (by simpa using hp)] at hc

theorem mem_pyStrip (l : List Char) : ∀ c ∈ pyStrip l, c ∈ l := by
  intro c hc
  exact mem_dropWhile_sub _ _ c (mem_rstrip _ _ c hc)

/-- Claim C6: the text-cleaning pass passes nulls through, cleans the
spec's example as stated, and on every string produces lowercased-input
characters separated by single spaces with no leading or trailing
whitespace. -/
theorem C6_clean_text_behavior :
    basic_text_clean none = none ∧
    basic_text_clean (some "Great App!!\n\nWorks   well") = some "great app!! works well" ∧
    ∀ s t, basic_text_clean (some s) = some t →
      (∀ c ∈ t.data, c = ' ' ∨ (c ∈ s.data.map Char.toLower ∧ isSpaceChar c = false)) ∧
      (∀ c, t.data.head? = some c → isSpaceChar c = false) ∧
      (∀ c, t.data.getLast? = some c → isSpaceChar c = false) ∧
      t.data.Chain' (fun a b => isSpaceChar a = false ∨ isSpaceChar b = false) := by
  refine ⟨rfl, by decide, fun s t ht => ?_⟩
  have ht' : t.data = pyStrip (collapseRuns isSpaceChar false
      (collapseRuns isNewlineChar false (s.data.map Char.toLower))) := by
    rw [basic_text_clean] at ht
    cases ht
    rfl
  set l1 := collapseRuns isNewlineChar false (s.data.map Char.toLower) with hl1
  set l2 := collapseRuns isSpaceChar false l1 with hl2
  refine ⟨?_, ?_, ?_, ?_⟩
  · intro c hc
    rw [ht'] at hc
    have hc2 : c ∈ l2 := mem_pyStrip _ c hc
    rcases mem_collapseRuns isSpaceChar l1 false c hc2 with h | ⟨h1, h2⟩
    · exact Or.inl h
    · rcases mem_collapseRuns isNewlineChar _ false c h1 with h | ⟨h3, _⟩
      · exact Or.inl h
      · exact Or.inr ⟨h3, h2⟩
  · intro c hc
    rw [ht'] at hc
    rcases head_rstrip isSpaceChar (l2.dropWhile isSpaceChar) with he | he
    · rw [pyStrip, he] at hc
      cases hc
    · rw [pyStrip, he] at hc
      exact head_dropWhile isSpaceChar l2 c hc
  · intro c hc
    rw [ht'] at hc
    exact getLast_rstrip isSpaceChar _ c hc
  · rw [ht']
    exact chain'_rstrip _ _ (chain'_dropWhile _ _ (chain'_collapseRuns isSpaceChar l1 false))

/-! Concrete batches used by counterexamples and witnesses. -/

/-! Membership lemmas for the pipeline passes. -/

theorem mem_handle_missing (l : List Rec) :
    ∀ r ∈ handle_missing_values l,
      r.review_text.isSome = true ∧ ratingIsNull r.rating = false ∧
        dateIsNull r.review_date = false := by
  intro r hr
  rw [handle_missing_values] at hr
  obtain ⟨r0, hr0, rfl⟩ := List.mem_map.mp hr
  have hc : criticalPresent r0 = true := List.of_mem_filter hr0
  rw [criticalPresent, Bool.and_eq_true, Bool.and_eq_true] at hc
  obtain ⟨⟨h1, h2⟩, h3⟩ := hc
  exact ⟨h1, by simpa using h2, by simpa using h3⟩

theorem mem_normalize_dates (l : List Rec) :
    ∀ r ∈ (normalize_dates l).1, ∃ r0 ∈ l,
      r.review_text = r0.review_text ∧ r.rating = r0.rating := by
  intro r hr
  rw [normalize_dates] at hr
  by_cases h : l.all fun r => (parseDate r.review_date).isSome
  · rw [if_pos h] at hr
    obtain ⟨r0, hr0, rfl⟩ := List.mem_map.mp hr
    exact ⟨r0, hr0, rfl, rfl⟩
  · rw [if_neg h] at hr
    exact ⟨r, hr, rfl, rfl⟩

theorem mem_clean_text (l : List Rec) :
    ∀ r ∈ clean_text l, ∃ r0 ∈ l,
      r.review_text = basic_text_clean r0.review_text ∧ r.rating = r0.rating := by
  intro r hr
  rw [clean_text] at hr
  obtain ⟨r0, hr0, rfl⟩ := List.mem_map.mp hr
  exact ⟨r0, hr0, rfl, rfl⟩

theorem mem_validate_ratings (l : List Rec) :
    ∀ r ∈ validate_ratings l,
      (∃ q, r.rating = RatingVal.num q ∧ 1 ≤ q ∧ q ≤ 5) ∧
        ∃ r0 ∈ l, r.review_text = r0.review_text := by
  intro r hr
  rw [validate_ratings] at hr
  have hp := List.of_mem_filter hr
  have hm := List.mem_of_mem_filter hr
  obtain ⟨r0, hr0, rfl⟩ := List.mem_map.mp hm
  refine ⟨?_, r0, hr0, rfl⟩
  rcases hq : toNumeric r0.rating with _ | q
  · rw [hq] at hp
    simp at hp
  · rw [hq] at hp
    simp only [Bool.and_eq_true, decide_eq_true_eq] at hp
    exact ⟨q, rfl, hp.1, hp.2⟩

theorem npTruncInt_bounds {q : ℚ} (h1 : 1 ≤ q) (h5 : q ≤ 5) :
    1 ≤ npTruncInt q ∧ npTruncInt q ≤ 5 := by
  have hq0 : ¬(q < 0) := not_lt.mpr (le_trans (by norm_num) h1)
  rw [npTruncInt, if_neg hq0]
  have hfl : Rat.floor q = ⌊q⌋ := (Rat.floor_def' q).trans Rat.floor_def.symm
  rw [hfl]
  constructor
  · exact Int.le_floor.mpr (by exact_mod_cast h1)
  · have h : (⌊q⌋ : ℚ) ≤ 5 := le_trans (Int.floor_le q) h5
    exact_mod_cast h

theorem process_ok_shape (rs : List Rec) (out : List FinalRec) (s : Stats)
    (h : process rs = Except.ok (out, s)) :
    (normalize_dates (handle_missing_values (remove_duplicates rs))).2 = true ∧
    out = (validate_ratings (clean_text
      (normalize_dates (handle_missing_values (remove_duplicates rs))).1)).map toFinal ∧
    s.original_count = rs.length := by
  simp only [process, prepare_final_output] at h
  by_cases hd : (normalize_dates (handle_missing_values (remove_duplicates rs))).2 = true
  · rw [if_pos hd] at h
    simp only [Except.ok.injEq, Prod.mk.injEq] at h
    obtain ⟨hout, hs⟩ := h
    exact ⟨hd, hout.symm, by rw [← hs]⟩
  · rw [if_neg hd] at h
    cases h

/-- Claim C3, amended: every record of the final output has all five
fields, with `review` present (possibly empty), an integer rating in
[1,5], and the constant source label. -/
theorem C3_final_output_invariant (rs : List Rec) (out : List FinalRec) (s : Stats)
    (h : process rs = Except.ok (out, s)) :
    ∀ f ∈ out, f.review.isSome = true ∧ 1 ≤ f.rating ∧ f.rating ≤ 5 ∧
      f.source = "Google Play Store" := by
  obtain ⟨-, hout, -⟩ := process_ok_shape rs out s h
  intro f hf
  rw [hout] at hf
  obtain ⟨r, hr, rfl⟩ := List.mem_map.mp hf
  obtain ⟨⟨q, hq, h1, h5⟩, r0, hr0, hrt⟩ := mem_validate_ratings _ r hr
  have hq' : toNumeric r.rating = some q := by rw [hq]; rfl
  refine ⟨?_, ?_, ?_, rfl⟩
  · obtain ⟨r1, hr1, hbt, -⟩ := mem_clean_text _ r0 hr0
    obtain ⟨r2, hr2, hrt2, -⟩ := mem_normalize_dates _ r1 hr1
    obtain ⟨hsome, -, -⟩ := mem_handle_missing _ r2 hr2
    show r.review_text.isSome = true
    rw [hrt, hbt, hrt2]
    rcases hv : r2.review_text with _ | v
    · rw [hv] at hsome
      simp at hsome
    · rfl
  · show 1 ≤ (toFinal r).rating
    simp only [toFinal, hq']
    exact (npTruncInt_bounds h1 h5).1
  · show (toFinal r).rating ≤ 5
    simp only [toFinal, hq']
    exact (npTruncInt_bounds h1 h5).2

/-- Claim C4, amended: after the rating-validation pass every surviving
record's rating is a rational number in [1,5] (not necessarily an
integer); non-numeric and out-of-range ratings are gone. -/
theorem C4_after_pass5 (l : List Rec) :
    ∀ r ∈ validate_ratings l, ∃ q, r.rating = RatingVal.num q ∧ 1 ≤ q ∧ q ≤ 5 :=
  fun r hr => (mem_validate_ratings l r hr).1

/-- Claim C1, amended: a bad date surviving to pass 3 makes the whole run
end in the projection pass's KeyError (pass 3 itself swallows the error
and passes 4 and 5 still run inside `process`). -/
theorem C1_bad_date_keyerror (rs : List Rec)
    (h : ∃ r ∈ handle_missing_values (remove_duplicates rs),
      r.review_date = DateVal.bad) :
    process rs = Except.error "KeyError: date" := by
  obtain ⟨r, hr, hbad⟩ := h
  have hall : ((handle_missing_values (remove_duplicates rs)).all
      fun r => (parseDate r.review_date).isSome) = false := by
    rw [List.all_eq_false]
    exact ⟨r, hr, by rw [hbad]; decide⟩
  have hnd : normalize_dates (handle_missing_values (remove_duplicates rs)) =
      (handle_missing_values (remove_duplicates rs), false) := by
    rw [normalize_dates, if_neg]
    rw [hall]
    exact Bool.false_ne_true
  simp [process, hnd, prepare_final_output]

/-- Claim C7: the reported data-loss percentage. -/
theorem C7_data_loss_pct (rs : List Rec) (out : List FinalRec) (s : Stats)
    (h : process rs = Except.ok (out, s)) (hpos : 0 < rs.length) :
    data_loss_pct s = ((s.duplicates_removed + s.rows_removed_missing +
        s.rows_removed_invalid_rating : ℕ) : ℚ) / (s.original_count : ℚ) * 100 ∧
    (s.duplicates_removed = 0 ∧ s.rows_removed_missing = 0 ∧
        s.rows_removed_invalid_rating = 0 → data_loss_pct s = 0) := by
  obtain ⟨-, -, hs⟩ := process_ok_shape rs out s h
  have hpos' : 0 < s.original_count := by rw [hs]; exact hpos
  constructor
  · rw [data_loss_pct, if_pos hpos']
  · rintro ⟨h1, h2, h3⟩
    rw [data_loss_pct, if_pos hpos', h1, h2, h3]
    norm_num

theorem C3_witness :
    finValid.review.isSome = true ∧ 1 ≤ finValid.rating ∧ finValid.rating ≤ 5 ∧
      finValid.source = "Google Play Store" :=
  C3_final_output_invariant [recValid] [finValid] statsValid (by decide)
    finValid (by decide)

theorem C4_witness :
    ∃ q, recValid.rating = RatingVal.num q ∧ 1 ≤ q ∧ q ≤ 5 :=
  C4_after_pass5 [recValid] recValid (by decide)

theorem C1_witness : process [recBadDate] = Except.error "KeyError: date" :=
  C1_bad_date_keyerror [recBadDate] (by decide)

theorem C7_witness :
    data_loss_pct statsValid = ((statsValid.duplicates_removed +
        statsValid.rows_removed_missing +
        statsValid.rows_removed_invalid_rating : ℕ) : ℚ) /
        (statsValid.original_count : ℚ) * 100 ∧
    (statsValid.duplicates_removed = 0 ∧ statsValid.rows_removed_missing = 0 ∧
        statsValid.rows_removed_invalid_rating = 0 →
      data_loss_pct statsValid = 0) :=
  C7_data_loss_pct [recValid] [finValid] statsValid (by decide) (by decide)

theorem C3_cex :
    process [recBlankText] = Except.ok ([finBlank], statsBlank) ∧
      finBlank.review = some "" :=
  ⟨by decide, rfl⟩

theorem C4_cex :
    validate_ratings (clean_text (normalize_dates (handle_missing_values
      (remove_duplicates [recFrac]))).1) = [recFracStage5] ∧
    recFracStage5.rating = RatingVal.num q47 ∧
    ¬ ∃ n : ℤ, q47 = (n : ℚ) := by
  refine ⟨by decide, rfl, ?_⟩
  rintro ⟨n, hn⟩
  have hd := congrArg Rat.den hn
  rw [Rat.den_intCast] at hd
  exact absurd hd (by decide)

theorem C1_cex :
    process [recBadDate, recBadRating] = Except.error "KeyError: date" ∧
    validate_ratings (clean_text (normalize_dates (handle_missing_values
      (remove_duplicates [recBadDate, recBadRating]))).1) = [recBadDateStage5] := by
  decide

/-- Claim C10 -/
theorem C10_dedup_before_cleaning :
    process [recCaseA, recCaseB] = Except.ok ([finCaseA, finCaseB], statsCase) ∧
    finCaseA.review = finCaseB.review ∧ finCaseA.bank = finCaseB.bank ∧
    finCaseA ≠ finCaseB := by
  decide

theorem insertReviewRow_accepted (db : Store) (bid : ℕ) (row : ArtifactRow)
    (h : GoodStore db) (hacc : rowAccepted row = true)
    (hfk : (db.banks.any fun b => b.bank_id == bid) = true) :
    insertReviewRow db bid row = Except.ok
      { db with
        reviews := db.reviews ++ [mkReviewRow db bid row]
        reviews_seq := db.reviews_seq + 1 } := by
  simp only [rowAccepted, Bool.and_eq_true, Bool.not_eq_true',
    decide_eq_true_eq] at hacc
  obtain ⟨⟨⟨⟨⟨hdate, hv50⟩, hv100⟩, hnum⟩, hlo⟩, hhi⟩ := hacc
  rcases hD : dateAccepted row.review_date with _ | d
  · rw [hD] at hdate
    simp at hdate
  · have hrate : ¬(npTruncInt row.rating < 1 ∨ 5 < npTruncInt row.rating) := by
      omega
    have hpk : ¬(db.reviews.any fun r => r.review_id == db.reviews_seq) = true := by
      intro hc
      obtain ⟨r, hr, hbeq⟩ := List.any_eq_true.mp hc
      exact absurd (eq_of_beq hbeq) (Nat.ne_of_lt (h r hr))
    rw [insertReviewRow, hD, if_neg (by simp), if_neg (by simp [hv50]),
      if_neg (by simp [hv100]), if_neg (by simp [hnum]), if_neg hrate,
      if_neg (by simp [hfk]), if_neg hpk]

theorem goodStore_append (db : Store) (bid : ℕ) (row : ArtifactRow)
    (h : GoodStore db) :
    GoodStore { db with
      reviews := db.reviews ++ [mkReviewRow db bid row]
      reviews_seq := db.reviews_seq + 1 } := by
  intro r hr
  rcases List.mem_append.mp hr with h1 | h1
  · exact Nat.lt_succ_of_lt (h r h1)
  · rw [List.mem_singleton] at h1
    subst h1
    exact Nat.lt_succ_self _

theorem buildTuples_spec (lkp : List (String × ℕ)) :
    ∀ rows : List ArtifactRow,
      ((buildTuples lkp rows).1.map Prod.snd =
        rows.filter fun r => (lookupBank lkp r.bank_code).isSome) ∧
      ((buildTuples lkp rows).2 =
        (rows.filter fun r => (lookupBank lkp r.bank_code).isNone).map
          fun r => skipWarning r.bank_code) ∧
      ∀ t ∈ (buildTuples lkp rows).1,
        lookupBank lkp t.2.bank_code = some t.1 := by
  intro rows
  induction rows with
  | nil => exact ⟨rfl, rfl, by simp [buildTuples]⟩
  | cons row rest ih =>
    obtain ⟨g1, g2, g3⟩ := ih
    rcases hl : lookupBank lkp row.bank_code with _ | bid
    · refine ⟨?_, ?_, ?_⟩
      · simp only [buildTuples, hl]
        simp [List.filter_cons, hl, g1]
      · simp only [buildTuples, hl]
        simp [List.filter_cons, hl, g2]
      · intro t ht
        simp only [buildTuples, hl] at ht
        exact g3 t ht
    · refine ⟨?_, ?_, ?_⟩
      · simp only [buildTuples, hl]
        simp [List.filter_cons, hl, g1]
      · simp only [buildTuples, hl]
        simp [List.filter_cons, hl, g2]
      · intro t ht
        simp only [buildTuples, hl] at ht
        rcases List.mem_cons.mp ht with rfl | ht
        · exact hl
        · exact g3 t ht

theorem runBatch_spec :
    ∀ (tuples : List (ℕ × ArtifactRow)) (db : Store), GoodStore db →
      (∀ t ∈ tuples, rowAccepted t.2 = true ∧
        (db.banks.any fun b => b.bank_id == t.1) = true) →
      ∃ db2, runBatch db tuples = Except.ok db2 ∧ GoodStore db2 ∧
        db2.banks = db.banks ∧
        db2.reviews.map ReviewRow.review_text =
          db.reviews.map ReviewRow.review_text ++
            tuples.map fun t => t.2.review_text := by
  intro tuples
  induction tuples with
  | nil =>
    intro db h _
    exact ⟨db, rfl, h, rfl, by simp⟩
  | cons t rest ih =>
    intro db h hall
    obtain ⟨hacc, hfk⟩ := hall t (List.mem_cons_self _ _)
    have heq := insertReviewRow_accepted db t.1 t.2 h hacc hfk
    have hgood1 := goodStore_append db t.1 t.2 h
    obtain ⟨db2, e1, e2, e3, e4⟩ :=
      ih { db with
            reviews := db.reviews ++ [mkReviewRow db t.1 t.2]
            reviews_seq := db.reviews_seq + 1 } hgood1
        (fun u hu => hall u (List.mem_cons_of_mem _ hu))
    refine ⟨db2, ?_, e2, e3, ?_⟩
    · simp only [runBatch, heq]
      exact e1
    · rw [e4]
      simp [mkReviewRow]

/-- Claim C9, amended: given a dimension lookup drawn from the store's own
dimension table, and provided every resolvable record passes the row
constraints the fact table declares, Phase B skips exactly the
unresolvable records with one warning each, inserts exactly the resolvable
records in order, and completes; a resolvable record violating a declared
constraint instead aborts the whole batch (rollback and re-raise). -/
theorem C9_skip_unknown_codes (lkp : List (String × ℕ)) (rows : List ArtifactRow)
    (db : Store) (h : GoodStore db) (hfk : lkpConsistent lkp db = true)
    (hacc : ∀ row ∈ rows, (lookupBank lkp row.bank_code).isSome = true →
      rowAccepted row = true) :
    ∃ db2 warns, insert_reviews lkp db rows = Except.ok (db2, warns) ∧
      db2.banks = db.banks ∧
      db2.reviews.map ReviewRow.review_text =
        db.reviews.map ReviewRow.review_text ++
          ((rows.filter fun row => (lookupBank lkp row.bank_code).isSome).map
            ArtifactRow.review_text) ∧
      db2.reviews.length =
        db.reviews.length +
          (rows.filter fun row => (lookupBank lkp row.bank_code).isSome).length ∧
      warns = (rows.filter fun row => (lookupBank lkp row.bank_code).isNone).map
        fun row => skipWarning row.bank_code := by
  obtain ⟨b1, b2, b3⟩ := buildTuples_spec lkp rows
  have hall : ∀ t ∈ (buildTuples lkp rows).1, rowAccepted t.2 = true ∧
      (db.banks.any fun b => b.bank_id == t.1) = true := by
    intro t ht
    have hl := b3 t ht
    have hmem : t.2 ∈ rows := by
      have hm : t.2 ∈ (buildTuples lkp rows).1.map Prod.snd :=
        List.mem_map_of_mem _ ht
      rw [b1] at hm
      exact List.mem_of_mem_filter hm
    refine ⟨hacc t.2 hmem (by rw [hl]; rfl), ?_⟩
    obtain ⟨p, hp, hsnd⟩ :
        ∃ p, lkp.find? (fun q => q.1 == t.2.bank_code) = some p ∧ p.2 = t.1 :=
      Option.map_eq_some'.mp hl
    have hmm := List.all_eq_true.mp hfk p (List.mem_of_find?_eq_some hp)
    rw [hsnd] at hmm
    exact hmm
  obtain ⟨db2, e1, e2, e3, e4⟩ := runBatch_spec (buildTuples lkp rows).1 db h hall
  have hmap : ((buildTuples lkp rows).1.map fun t => t.2.review_text) =
      ((rows.filter fun row => (lookupBank lkp row.bank_code).isSome).map
        ArtifactRow.review_text) := by
    rw [← b1, List.map_map]
    rfl
  refine ⟨db2, (buildTuples lkp rows).2, ?_, e3, ?_, ?_, b2⟩
  · simp only [insert_reviews, e1]
  · rw [e4, hmap]
  · have hlen := congrArg List.length (e4.trans (by rw [hmap]))
    simpa using hlen

theorem C9_witness :
    ∃ db2 warns,
      insert_reviews lkpCBE storeCBE [artValid, artUnknown] =
        Except.ok (db2, warns) ∧
      db2.banks = storeCBE.banks ∧
      db2.reviews.map ReviewRow.review_text =
        storeCBE.reviews.map ReviewRow.review_text ++
          (([artValid, artUnknown].filter
            fun row => (lookupBank lkpCBE row.bank_code).isSome).map
              ArtifactRow.review_text) ∧
      db2.reviews.length =
        storeCBE.reviews.length +
          ([artValid, artUnknown].filter
            fun row => (lookupBank lkpCBE row.bank_code).isSome).length ∧
      warns = ([artValid, artUnknown].filter
        fun row => (lookupBank lkpCBE row.bank_code).isNone).map
          fun row => skipWarning row.bank_code :=
  C9_skip_unknown_codes lkpCBE [artValid, artUnknown] storeCBE
    (by intro r hr; exact absurd hr (List.not_mem_nil r)) (by decide) (by decide)

/-- Claim C9 counterexample: a fact batch with one unresolvable record and
one resolvable record whose rating violates the CHECK constraint does not
complete: the insert raises (so the transaction rolls back and nothing is
inserted), and through `main` the run exits 1 with no fact rows stored. -/
theorem C9_cex :
    lookupBank lkpCBE artUnknown.bank_code = none ∧
    (lookupBank lkpCBE artRating7.bank_code).isSome = true ∧
    insert_reviews lkpCBE storeCBE [artUnknown, artRating7] =
      Except.error "new row violates check constraint on rating" ∧
    (loader_main true required_cols [artRating7] true emptyStore).exitCode = 1 ∧
    (loader_main true required_cols [artRating7] true emptyStore).store.reviews = [] := by
  refine ⟨by decide, by decide, by decide, by decide, by decide⟩

/-- Claim C8, amended: on an artifact missing an expected column the Loader
reports the descriptive error and returns before connecting or touching the
store, but the process exits with status 0, not a non-zero signal. -/
theorem C8_missing_columns (cols : List String) (rows : List ArtifactRow)
    (connOk : Bool) (db : Store)
    (h : ∃ c ∈ required_cols, c ∉ cols) :
    loader_main true cols rows connOk db =
      { exitCode := 0, connected := false, store := db
      , messages := ["ERROR: CSV is missing required columns"] } := by
  obtain ⟨c, hc, hnc⟩ := h
  have hall : (required_cols.all fun c => cols.contains c) = false := by
    rw [List.all_eq_false]
    refine ⟨c, hc, fun hcon => hnc ?_⟩
    simpa using hcon
  rw [loader_main, if_pos rfl, if_neg (by simp only [List.all_eq_true, not_forall]; simp; exact ⟨c, hc, hnc⟩)]

theorem C8_witness :
    loader_main true EXPECTED_COLUMNS [] true emptyStore =
      { exitCode := 0, connected := false, store := emptyStore
      , messages := ["ERROR: CSV is missing required columns"] } :=
  C8_missing_columns EXPECTED_COLUMNS [] true emptyStore (by decide)

theorem C8_cex :
    loader_main true EXPECTED_COLUMNS [] true emptyStore =
      { exitCode := 0, connected := false, store := emptyStore
      , messages := ["ERROR: CSV is missing required columns"] } ∧
    "identified_theme" ∈ required_cols ∧
    "identified_theme" ∉ EXPECTED_COLUMNS := by
  refine ⟨by decide, by decide, by decide⟩

/-- Claim C2: loading the same one-row artifact twice against the store the
Loader itself creates doubles the fact rows; the second run's duplicate is
not suppressed, because the created reviews table has no uniqueness
constraint over the fact's natural key (only the serial primary key). -/
theorem C2_run_twice :
    (loader_main true required_cols [artValid] true emptyStore).store.reviews.length = 1 ∧
    (loader_main true required_cols [artValid] true
      (loader_main true required_cols [artValid] true
        emptyStore).store).store.reviews.length = 2 ∧
    (loader_main true required_cols [artValid] true
      (loader_main true required_cols [artValid] true
        emptyStore).store).store.reviews.map
          (fun r => (r.bank_id, r.review_text, r.rating, r.review_date)) =
      [(1, "good app", 5, "2024-01-01"), (1, "good app", 5, "2024-01-01")] := by
  refine ⟨by decide, by decide, by decide⟩

end BankReview
